import Mathlib

/-!
Shallow embedding of the qwery-ai repository: the batch ETL loader
(`src/etl/etl_load_pgvector.py`, class `PgVectorETL`) and the HTTP query
service (`src/app.py`).  External collaborators (PostgreSQL with pgvector,
the sentence-transformer model, the Ollama embedding server, the
filesystem) are modelled as explicit parameters: a boolean success flag
where the code only observes success/failure, a function where the code
observes a value (the embedding of a text, the cosine distance between two
vectors).  Machine floats in embeddings are modelled as rationals; vector
values never participate in arithmetic performed by this repository itself,
only in values returned by the external database/model, so this is faithful.
-/

namespace ETL

/-- Filesystem metadata captured for each extracted text file
(`extract_documents`, the `metadata` dict literal). -/
structure MetaData where
  filename : String
  filepath : String
  file_type : String
  size : Nat
deriving DecidableEq

/-- A document dictionary as built by `extract_documents` and extended by
`generate_embeddings`: the `embedding` key is `none` when absent or when
set to Python `None` after a per-document embedding failure. -/
structure Doc where
  content : String
  metadata : MetaData
  embedding : Option (List ℚ)
deriving DecidableEq

/-- A text file in the source directory as seen by `source.rglob('*.txt')`:
`read` is `some content` when `open(...).read()` succeeds and `none` when
reading raises (the per-file `except` branch). -/
structure TxtFile where
  name : String
  path : String
  size : Nat
  read : Option String
deriving DecidableEq

/-- The document dictionary appended for one successfully read file
(`documents.append({...})` in `extract_documents`). -/
def mkDoc (f : TxtFile) (content : String) : Doc :=
  { content := content
    metadata := { filename := f.name, filepath := f.path
                  file_type := "txt", size := f.size }
    embedding := none }

/-- The `for file_path in source.rglob('*.txt')` loop: a file whose read
raises is logged and skipped, all others append a pending document. -/
def extractLoop : List TxtFile → List Doc
  | [] => []
  | f :: rest =>
    match f.read with
    | some content => mkDoc f content :: extractLoop rest
    | none => extractLoop rest

/-- `PgVectorETL.extract_documents`: returns `[]` when the source path does
not exist, otherwise scans the text files. -/
def extract_documents (sourceExists : Bool) (files : List TxtFile) : List Doc :=
  if sourceExists then extractLoop files else []

/-- One iteration of the embedding loop: `doc['embedding']` is set to the
encoded vector on success and to `None` when `model.encode` raises, which
is exactly `encode doc.content : Option (List ℚ)`. -/
def embedDoc (encode : String → Option (List ℚ)) (doc : Doc) : Doc :=
  { doc with embedding := encode doc.content }

/-- The `for i, doc in enumerate(documents)` loop of `generate_embeddings`. -/
def embedLoop (encode : String → Option (List ℚ)) : List Doc → List Doc
  | [] => []
  | doc :: rest => embedDoc encode doc :: embedLoop encode rest

/-- `PgVectorETL.generate_embeddings`: when no model is loaded the input
list is returned untouched, otherwise every document gets its `embedding`
key written. -/
def generate_embeddings (modelLoaded : Bool) (encode : String → Option (List ℚ))
    (documents : List Doc) : List Doc :=
  if modelLoaded then embedLoop encode documents else documents

/-- A row of the `documents` table as inserted by the loader
(`INSERT INTO documents (content, metadata, embedding) VALUES ...`). -/
structure Row where
  content : String
  metadata : MetaData
  embedding : List ℚ
deriving DecidableEq

/-- The insert loop of `load_to_pgvector`: documents with `embedding is None`
are skipped; each surviving document is inserted inside the open transaction
(`pending` holds the uncommitted rows) and `loaded_count` is incremented;
the first insert that raises aborts the loop with the count so far and the
failure flag set. `insertOk d = false` models `cur.execute` raising on `d`. -/
def insertLoop (insertOk : Doc → Bool) : List Doc → Nat → List Row → Nat × List Row × Bool
  | [], count, pending => (count, pending, true)
  | doc :: rest, count, pending =>
    match doc.embedding with
    | none => insertLoop insertOk rest count pending
    | some e =>
      if insertOk doc then
        insertLoop insertOk rest (count + 1)
          (pending ++ [{ content := doc.content, metadata := doc.metadata, embedding := e }])
      else
        (count, pending, false)

/-- `PgVectorETL.load_to_pgvector`: runs the insert loop in one transaction;
if every insert ran and `conn.commit()` succeeds the pending rows are
appended to the table, otherwise `conn.rollback()` leaves the table
unchanged.  Either way the function returns `loaded_count` as accumulated
by the loop. -/
def load_to_pgvector (insertOk : Doc → Bool) (commitOk : Bool)
    (rows : List Row) (documents : List Doc) : Nat × List Row :=
  let r := insertLoop insertOk documents 0 []
  if r.2.2 && commitOk then (r.1, rows ++ r.2.1) else (r.1, rows)

/-- The database-side state touched by `initialize_pgvector`: the vector
extension, the `documents` table (with the vector-column dimension it was
created with) and the ivfflat index, plus the table rows. -/
structure DBState where
  ext : Bool
  table : Option Nat
  index : Bool
  rows : List Row
deriving DecidableEq

/-- `self.embedding_dim = 384  # Default for all-MiniLM-L6-v2` in
`PgVectorETL.__init__`. -/
def default_embedding_dim : Nat := 384

/-- `PgVectorETL.initialize_pgvector` (success path): `CREATE EXTENSION IF
NOT EXISTS vector`, `CREATE TABLE IF NOT EXISTS documents (... embedding
vector(self.embedding_dim) ...)`, `CREATE INDEX IF NOT EXISTS ...` — each
object is created only when absent, and an existing table keeps the
dimension it was created with. -/
def initialize_pgvector (embedding_dim : Nat) (db : DBState) : DBState :=
  { db with
      ext := true
      table := some (db.table.getD embedding_dim)
      index := true }

/-- The external world of one ETL run: success flags for the connection,
the schema statements and the model load; the loaded model's output
dimension and encoding function; the source directory; and the insert /
commit outcomes at the database. -/
structure Config where
  connectOk : Bool
  schemaOk : Bool
  modelLoadOk : Bool
  modelDim : Nat
  encode : String → Option (List ℚ)
  sourceExists : Bool
  files : List TxtFile
  insertOk : Doc → Bool
  commitOk : Bool

/-- Observable outcome of `PgVectorETL.run_etl`: the returned boolean, the
final database state, the count reported by the load stage, and the final
value of `self.embedding_dim`. -/
structure RunResult where
  success : Bool
  db : DBState
  loaded_count : Nat
  embedding_dim : Nat

/-- `PgVectorETL.run_etl` on a freshly constructed `PgVectorETL` (as `main`
does): connect, initialize pgvector (with the *default* dimension — the
model is loaded only afterwards), load the model (recording its
dimension), extract, embed, load.  Steps 1–3 return `False` on failure;
an empty extraction returns `False`; otherwise the run returns `True`
whatever `load_to_pgvector` reported. -/
def run_etl (cfg : Config) (db : DBState) : RunResult :=
  if !cfg.connectOk then
    { success := false, db := db, loaded_count := 0, embedding_dim := default_embedding_dim }
  else if !cfg.schemaOk then
    { success := false, db := db, loaded_count := 0, embedding_dim := default_embedding_dim }
  else
    let db1 := initialize_pgvector default_embedding_dim db
    if !cfg.modelLoadOk then
      { success := false, db := db1, loaded_count := 0, embedding_dim := default_embedding_dim }
    else
      let documents := extract_documents cfg.sourceExists cfg.files
      if documents.isEmpty then
        { success := false, db := db1, loaded_count := 0, embedding_dim := cfg.modelDim }
      else
        let documents := generate_embeddings true cfg.encode documents
        let r := load_to_pgvector cfg.insertOk cfg.commitOk db1.rows documents
        { success := true, db := { db1 with rows := r.2 }, loaded_count := r.1
          embedding_dim := cfg.modelDim }

/-- The process exit code produced by `main`: `sys.exit(0 if success else 1)`. -/
def mainExitCode (cfg : Config) (db : DBState) : Nat :=
  if (run_etl cfg db).success then 0 else 1

/-- Number of documents in a list whose `embedding` key is present
(exactly the documents the load loop inserts). -/
def countEmbedded (docs : List Doc) : Nat :=
  (docs.filter fun d => d.embedding.isSome).length

end ETL

namespace App

/-- A row of the `documents` table as seen by the query service
(`src/app.py`): id, content, JSON metadata (modelled as key/value pairs)
and the stored embedding vector. -/
structure DocRow where
  id : Nat
  content : String
  metadata : List (String × String)
  embedding : List ℚ
deriving DecidableEq

/-- One entry of the `results` array returned by `search_documents`:
`{"id": r[0], "content": r[1], "metadata": r[2], "similarity": float(r[3])}`. -/
structure SearchResult where
  id : Nat
  content : String
  metadata : List (String × String)
  similarity : ℚ
deriving DecidableEq

/-- `generate_embedding`: forwards the provider's vector on success; on any
exception it raises `HTTPException(500, "Embedding generation failed: " +
str(e))`.  The Ollama call itself is external and is the `provider`
parameter. -/
def generate_embedding (provider : Except String (List ℚ)) : Except String (List ℚ) :=
  match provider with
  | .ok v => .ok v
  | .error e => .error ("Embedding generation failed: " ++ e)

/-- An HTTP error response (`HTTPException(status_code, detail)`). -/
structure HTTPError where
  status : Nat
  detail : String
deriving DecidableEq

/-- `add_document`: generate the embedding, then `INSERT ... RETURNING id`
followed by `conn.commit()`.  `insertRes` is the database's reply to the
insert-and-commit (the returned id, or the text of the raised error); an
exception anywhere before the commit leaves the transaction uncommitted,
so the stored rows are unchanged.  Every exception is converted by the
handler's `except` into `HTTPException(500, str(e))`. -/
def add_document (provider : Except String (List ℚ)) (insertRes : Except String Nat)
    (db : List DocRow) (content : String) (metadata : List (String × String)) :
    Except HTTPError (Nat × String) × List DocRow :=
  match generate_embedding provider with
  | .error e => (.error { status := 500, detail := e }, db)
  | .ok emb =>
    match insertRes with
    | .error e => (.error { status := 500, detail := e }, db)
    | .ok doc_id =>
      (.ok (doc_id, "success"),
       db ++ [{ id := doc_id, content := content, metadata := metadata, embedding := emb }])

/-- The SQL text of `search_documents`:
`SELECT id, content, metadata, 1 - (embedding <=> q) AS similarity FROM
documents WHERE 1 - (embedding <=> q) > threshold ORDER BY embedding <=> q
LIMIT limit`.  The pgvector cosine-distance operator `<=>` is the external
`cosDist` parameter; filtering, ordering and the limit are the SQL
semantics: keep rows passing the WHERE clause, sort them by ascending
distance, truncate to `limit`, and project each row to the result shape. -/
def search_documents (cosDist : List ℚ → List ℚ → ℚ) (table : List DocRow)
    (query_embedding : List ℚ) (threshold : ℚ) (limit : Nat) : List SearchResult :=
  let keep := table.filter fun r => threshold < 1 - cosDist r.embedding query_embedding
  let ordered := List.insertionSort
    (fun a b => cosDist a.embedding query_embedding ≤ cosDist b.embedding query_embedding) keep
  (ordered.take limit).map fun r =>
    { id := r.id, content := r.content, metadata := r.metadata
      similarity := 1 - cosDist r.embedding query_embedding }

end App

namespace ETL

theorem length_filter_add_length_filter_not {α : Type} (p : α → Bool) (l : List α) :
    (l.filter p).length + (l.filter fun a => !p a).length = l.length := by
  induction l with
  | nil => rfl
  | cons a l ih => cases h : p a <;> simp [List.filter_cons, h] <;> omega

theorem extractLoop_eq_filterMap (files : List TxtFile) :
    extractLoop files = files.filterMap fun f => (f.read).map (mkDoc f) := by
  induction files with
  | nil => rfl
  | cons f rest ih => cases h : f.read <;> simp [extractLoop, h, ih]

theorem extractLoop_length (files : List TxtFile) :
    (extractLoop files).length = (files.filter fun f => f.read.isSome).length := by
  induction files with
  | nil => rfl
  | cons f rest ih => cases h : f.read <;> simp [extractLoop, h, List.filter_cons, ih]

theorem filter_isSome_add_filter_isNone (files : List TxtFile) :
    (files.filter fun f => f.read.isSome).length
      + (files.filter fun f => f.read.isNone).length = files.length := by
  induction files with
  | nil => rfl
  | cons f rest ih => cases h : f.read <;> simp [List.filter_cons, h] <;> omega

/-- Claim C10: a per-file read failure during extraction is isolated — an
unreadable text file is skipped and extraction continues, never raising;
over `files` with `F` unreadable entries, exactly the readable ones are
returned, i.e. `N − F` documents for `N` files. -/
theorem extract_documents_isolates_read_failures (files : List TxtFile) :
    extract_documents true files = (files.filterMap fun f => (f.read).map (mkDoc f)) ∧
    (extract_documents true files).length
      = files.length - (files.filter fun f => f.read.isNone).length := by
  constructor
  · simpa [extract_documents] using extractLoop_eq_filterMap files
  · have h1 := extractLoop_length files
    have h2 := filter_isSome_add_filter_isNone files
    have h3 : extract_documents true files = extractLoop files := by
      simp [extract_documents]
    rw [h3]
    omega

theorem embedLoop_eq_map (encode : String → Option (List ℚ)) (docs : List Doc) :
    embedLoop encode docs = docs.map (embedDoc encode) := by
  induction docs with
  | nil => rfl
  | cons d rest ih => simp [embedLoop, ih]

/-- Claim C9: the embed stage returns a list of the same length in the same
order, with each document's `content` and `metadata` unchanged; the only
field it writes is `embedding` — the computed vector on success, `none` on
a per-document failure. -/
theorem generate_embeddings_frame (encode : String → Option (List ℚ)) (documents : List Doc) :
    (generate_embeddings true encode documents).length = documents.length ∧
    (generate_embeddings true encode documents).map Doc.content
      = documents.map Doc.content ∧
    (generate_embeddings true encode documents).map Doc.metadata
      = documents.map Doc.metadata ∧
    (generate_embeddings true encode documents).map Doc.embedding
      = documents.map fun d => encode d.content := by
  simp [generate_embeddings, embedLoop_eq_map, List.map_map, Function.comp, embedDoc]

/-- Claim C8: schema initialization is idempotent — composing
`initialize_pgvector` with itself equals a single application, for every
starting database state (all three objects are created with is-absent
checks only). -/
theorem initialize_pgvector_idempotent (embedding_dim : Nat) (db : DBState) :
    initialize_pgvector embedding_dim (initialize_pgvector embedding_dim db)
      = initialize_pgvector embedding_dim db := by
  cases h : db.table <;> simp [initialize_pgvector, h]

theorem insertLoop_count (io : Doc → Bool) (docs : List Doc) :
    ∀ (n : Nat) (pending : List Row),
      (insertLoop io docs n pending).1
        = n + countEmbedded (docs.takeWhile fun d => !d.embedding.isSome || io d) := by
  induction docs with
  | nil => intro n pending; simp [insertLoop, countEmbedded]
  | cons doc rest ih =>
    intro n pending
    cases hemb : doc.embedding with
    | none =>
      simp [insertLoop, hemb, List.takeWhile_cons, countEmbedded, List.filter_cons, ih]
    | some e =>
      cases hio : io doc with
      | false =>
        simp [insertLoop, hemb, hio, List.takeWhile_cons, countEmbedded]
      | true =>
        simp [insertLoop, hemb, hio, List.takeWhile_cons, countEmbedded,
          List.filter_cons, ih]
        omega

theorem insertLoop_fails (io : Doc → Bool) (docs : List Doc)
    (h : ∃ d ∈ docs, d.embedding.isSome ∧ io d = false) :
    ∀ (n : Nat) (pending : List Row), (insertLoop io docs n pending).2.2 = false := by
  induction docs with
  | nil => simp at h
  | cons doc rest ih =>
    intro n pending
    obtain ⟨d, hd, hsome, hiof⟩ := h
    rcases List.mem_cons.mp hd with heq | htail
    · subst heq
      cases hemb : d.embedding with
      | none => simp [hemb] at hsome
      | some e => simp [insertLoop, hemb, hiof]
    · cases hemb : doc.embedding with
      | none => simpa [insertLoop, hemb] using ih ⟨d, htail, hsome, hiof⟩ n pending
      | some e =>
        cases hio : io doc with
        | false => simp [insertLoop, hemb, hio]
        | true => simpa [insertLoop, hemb, hio] using ih ⟨d, htail, hsome, hiof⟩ _ _

/-- The rows that the insert loop stages for a document list in which every
insert succeeds: one row per document with a present embedding. -/
def rowsOf (docs : List Doc) : List Row :=
  docs.filterMap fun d => (d.embedding).map fun e =>
    { content := d.content, metadata := d.metadata, embedding := e }

theorem rowsOf_length (docs : List Doc) : (rowsOf docs).length = countEmbedded docs := by
  induction docs with
  | nil => rfl
  | cons d rest ih =>
    cases h : d.embedding <;>
      simp [rowsOf, countEmbedded, List.filter_cons, h, ih] <;>
      simpa [rowsOf, countEmbedded] using ih

theorem insertLoop_all_ok (io : Doc → Bool) (docs : List Doc)
    (h : ∀ d ∈ docs, d.embedding.isSome → io d = true) :
    ∀ (n : Nat) (pending : List Row),
      insertLoop io docs n pending
        = (n + countEmbedded docs, pending ++ rowsOf docs, true) := by
  induction docs with
  | nil => intro n pending; simp [insertLoop, countEmbedded, rowsOf]
  | cons doc rest ih =>
    intro n pending
    have ihr := ih fun d hd hs => h d (List.mem_cons_of_mem _ hd) hs
    cases hemb : doc.embedding with
    | none =>
      simp [insertLoop, hemb, countEmbedded, rowsOf, List.filter_cons, ihr]
    | some e =>
      have hio : io doc = true := h doc (List.mem_cons_self _ _) (by simp [hemb])
      simp [insertLoop, hemb, hio, ihr, countEmbedded, rowsOf, List.filter_cons]
      omega

/-- First document of the C1 batch: its insert succeeds. -/
def c1doc1 : Doc :=
  { content := "alpha"
    metadata := { filename := "a.txt", filepath := "docs/a.txt", file_type := "txt", size := 5 }
    embedding := some [1] }

/-- Second document of the C1 batch: its insert raises. -/
def c1doc2 : Doc :=
  { content := "beta"
    metadata := { filename := "b.txt", filepath := "docs/b.txt", file_type := "txt", size := 4 }
    embedding := some [1] }

/-- The two-document batch on which the bulk insert fails midway. -/
def c1docs : List Doc := [c1doc1, c1doc2]

/-- Insert outcome for the C1 batch: the first document inserts, the second
raises. -/
def c1insertOk : Doc → Bool := fun d => d.content == "alpha"

/-- Claim C1 counterexample: on a two-document batch whose second insert
fails, the transaction is rolled back (no row is persisted) — but
`load_to_pgvector` reports `1` loaded, not `0` as the claim states:
`loaded_count` is incremented before the failure and returned unchanged
after the rollback. -/
theorem load_to_pgvector_partial_count_counterexample :
    (∃ d ∈ c1docs, d.embedding.isSome ∧ c1insertOk d = false) ∧
    (load_to_pgvector c1insertOk true [] c1docs).2 = [] ∧
    (load_to_pgvector c1insertOk true [] c1docs).1 = 1 := by
  decide

/-- Claim C1 (amended): if any insert in the batch fails, the whole batch
is discarded — the transaction is rolled back, so no row from the batch is
persisted — and the operation reports the number of documents inserted
before the failure (the embedded documents of the longest prefix whose
inserts all succeed), which may be nonzero rather than zero. -/
theorem load_to_pgvector_rollback_on_failure (io : Doc → Bool) (commitOk : Bool)
    (rows : List Row) (docs : List Doc)
    (h : ∃ d ∈ docs, d.embedding.isSome ∧ io d = false) :
    (load_to_pgvector io commitOk rows docs).2 = rows ∧
    (load_to_pgvector io commitOk rows docs).1
      = countEmbedded (docs.takeWhile fun d => !d.embedding.isSome || io d) := by
  have hf := insertLoop_fails io docs h 0 []
  have hc := insertLoop_count io docs 0 []
  simp [load_to_pgvector, hf, hc]

/-- Witness for the amended claim C1, at the concrete failing batch. -/
theorem load_to_pgvector_rollback_on_failure_witness :
    (load_to_pgvector c1insertOk true [] c1docs).2 = [] ∧
    (load_to_pgvector c1insertOk true [] c1docs).1
      = countEmbedded (c1docs.takeWhile fun d => !d.embedding.isSome || c1insertOk d) :=
  load_to_pgvector_rollback_on_failure c1insertOk true [] c1docs (by decide)

/-- An initially empty database: no extension, no table, no index, no rows. -/
def emptyDB : DBState := { ext := false, table := none, index := false, rows := [] }

/-- A readable one-line source file used by the concrete run configurations. -/
def c2file : TxtFile := { name := "a.txt", path := "docs/a.txt", size := 5, read := some "alpha" }

/-- Run configuration for the C2 counterexample: every stage up to the load
succeeds, one document is extracted and embedded, and then its database
insert raises. -/
def c2cfg : Config :=
  { connectOk := true, schemaOk := true, modelLoadOk := true, modelDim := 384
    encode := fun _ => some [1], sourceExists := true, files := [c2file]
    insertOk := fun _ => false, commitOk := true }

/-- Claim C2 counterexample: with one extracted and embedded document whose
database insert raises, the load stage fails — the insert loop aborts, the
batch is rolled back, zero documents are loaded — yet `run_etl` returns
`True` and the process exits with code 0, contrary to the claim that a
failure during the load stage makes the run report failure. -/
theorem run_etl_ignores_load_failure_counterexample :
    (insertLoop c2cfg.insertOk
        (generate_embeddings true c2cfg.encode
          (extract_documents c2cfg.sourceExists c2cfg.files)) 0 []).2.2 = false ∧
    (run_etl c2cfg emptyDB).loaded_count = 0 ∧
    (run_etl c2cfg emptyDB).db.rows = [] ∧
    (run_etl c2cfg emptyDB).success = true ∧
    mainExitCode c2cfg emptyDB = 0 := by
  decide

/-- Claim C2 (amended): the run reports success — `run_etl` returns `True`
and `main` exits 0 — iff the connect, schema-initialization and model-load
stages succeed and at least one document was extracted.  A failure during
the load stage does not affect the outcome: `load_to_pgvector` catches its
own exceptions, so the run still reports success with exit code 0. -/
theorem run_etl_success_iff (cfg : Config) (db : DBState) :
    (run_etl cfg db).success
      = (cfg.connectOk && cfg.schemaOk && cfg.modelLoadOk
          && !(extract_documents cfg.sourceExists cfg.files).isEmpty) ∧
    mainExitCode cfg db = (if (run_etl cfg db).success then 0 else 1) := by
  constructor
  · cases hc : cfg.connectOk <;> cases hs : cfg.schemaOk <;>
      cases hm : cfg.modelLoadOk <;>
      cases he : (extract_documents cfg.sourceExists cfg.files).isEmpty <;>
      simp [run_etl, hc, hs, hm, he]
  · rfl

/-- Claim C7: when the source directory does not exist or contains no text
files, the run inserts no rows, runs to completion without an unhandled
exception (every stage of the model is a total function), reports failure
and exits with code 1 — whatever the other stages do. -/
theorem run_etl_empty_source (cfg : Config) (db : DBState)
    (h : cfg.sourceExists = false ∨ cfg.files = []) :
    (run_etl cfg db).success = false ∧
    (run_etl cfg db).db.rows = db.rows ∧
    (run_etl cfg db).loaded_count = 0 ∧
    mainExitCode cfg db = 1 := by
  have he : extract_documents cfg.sourceExists cfg.files = [] := by
    rcases h with h | h <;> simp [extract_documents, h, extractLoop]
  cases hc : cfg.connectOk <;> cases hs : cfg.schemaOk <;> cases hm : cfg.modelLoadOk <;>
    simp [run_etl, mainExitCode, hc, hs, hm, he, initialize_pgvector]

/-- Run configuration for the C7 witness: the source directory is missing. -/
def c7cfg : Config :=
  { connectOk := true, schemaOk := true, modelLoadOk := true, modelDim := 384
    encode := fun _ => some [1], sourceExists := false, files := []
    insertOk := fun _ => true, commitOk := true }

/-- Witness for claim C7 at a concrete run with a missing source directory. -/
theorem run_etl_empty_source_witness :
    (run_etl c7cfg emptyDB).success = false ∧
    (run_etl c7cfg emptyDB).db.rows = [] ∧
    (run_etl c7cfg emptyDB).loaded_count = 0 ∧
    mainExitCode c7cfg emptyDB = 1 := by
  simpa [emptyDB] using run_etl_empty_source c7cfg emptyDB (Or.inl rfl)

theorem countEmbedded_embedLoop (encode : String → Option (List ℚ)) (docs : List Doc) :
    countEmbedded (embedLoop encode docs)
      = (docs.filter fun d => (encode d.content).isSome).length := by
  induction docs with
  | nil => rfl
  | cons d rest ih =>
    cases h : encode d.content <;>
      simp [embedLoop, embedDoc, countEmbedded, List.filter_cons, h] <;>
      simpa [countEmbedded] using ih

theorem filter_encode_split (encode : String → Option (List ℚ)) (docs : List Doc) :
    (docs.filter fun d => (encode d.content).isSome).length
      + (docs.filter fun d => (encode d.content).isNone).length = docs.length := by
  induction docs with
  | nil => rfl
  | cons d rest ih => cases h : encode d.content <;> simp [List.filter_cons, h] <;> omega

/-- Claim C4: over an existing source directory of `N` readable text files,
with a healthy database (every insert and the final commit succeed) and
the earlier stages succeeding, the load stage reports exactly `N − K`
documents loaded and appends exactly `N − K` rows, where `K` is the number
of documents whose embedding computation failed: each failed embedding is
set to `None` and its document silently skipped.  `K = 0` gives exactly
`N` rows. -/
theorem run_etl_loaded_count (cfg : Config) (db : DBState)
    (hc : cfg.connectOk = true) (hs : cfg.schemaOk = true) (hm : cfg.modelLoadOk = true)
    (hsrc : cfg.sourceExists = true)
    (hread : ∀ f ∈ cfg.files, f.read.isSome = true)
    (hio : ∀ d, cfg.insertOk d = true)
    (hco : cfg.commitOk = true)
    (hne : cfg.files ≠ []) :
    (run_etl cfg db).loaded_count
      = cfg.files.length
        - ((extract_documents true cfg.files).filter
            fun d => (cfg.encode d.content).isNone).length ∧
    (run_etl cfg db).db.rows.length
      = db.rows.length + (run_etl cfg db).loaded_count := by
  have hfilter : cfg.files.filter (fun f => f.read.isSome) = cfg.files :=
    List.filter_eq_self.mpr hread
  have hext : extract_documents true cfg.files = extractLoop cfg.files := by
    simp [extract_documents]
  have hlen : (extract_documents true cfg.files).length = cfg.files.length := by
    rw [hext, extractLoop_length, hfilter]
  have hne2 : (extract_documents true cfg.files).isEmpty = false := by
    cases hE : extract_documents true cfg.files with
    | nil =>
      rw [hE] at hlen
      cases hF : cfg.files with
      | nil => exact absurd hF hne
      | cons f fs => rw [hF] at hlen; simp at hlen
    | cons a l => simp
  have hall : ∀ d ∈ generate_embeddings true cfg.encode (extract_documents true cfg.files),
      d.embedding.isSome → cfg.insertOk d = true := fun d _ _ => hio d
  have hload := insertLoop_all_ok cfg.insertOk _ hall 0 []
  have hrun : run_etl cfg db
      = { success := true
          db := { initialize_pgvector default_embedding_dim db with
                    rows := (initialize_pgvector default_embedding_dim db).rows
                      ++ rowsOf (generate_embeddings true cfg.encode
                            (extract_documents true cfg.files)) }
          loaded_count := countEmbedded (generate_embeddings true cfg.encode
              (extract_documents true cfg.files))
          embedding_dim := cfg.modelDim } := by
    simp [run_etl, hc, hs, hm, hsrc, hne2, load_to_pgvector, hload, hco]
  rw [hrun]
  have hgen : generate_embeddings true cfg.encode (extract_documents true cfg.files)
      = embedLoop cfg.encode (extract_documents true cfg.files) := by
    simp [generate_embeddings]
  constructor
  · show countEmbedded _ = _
    rw [hgen, countEmbedded_embedLoop]
    have hsplit := filter_encode_split cfg.encode (extract_documents true cfg.files)
    omega
  · simp [initialize_pgvector, rowsOf_length]

/-- Second source file for the C4 witness configuration. -/
def c4file2 : TxtFile := { name := "b.txt", path := "docs/b.txt", size := 4, read := some "beta" }

/-- Run configuration for the C4 witness: two readable files, the embedding
of the second one fails, the database accepts every insert. -/
def c4cfg : Config :=
  { connectOk := true, schemaOk := true, modelLoadOk := true, modelDim := 384
    encode := fun s => if s = "alpha" then some [1] else none
    sourceExists := true, files := [c2file, c4file2]
    insertOk := fun _ => true, commitOk := true }

/-- Witness for claim C4: `N = 2` files, `K = 1` embedding failure, so
exactly `1` row is loaded and reported. -/
theorem run_etl_loaded_count_witness :
    (run_etl c4cfg emptyDB).loaded_count = 1 ∧
    (run_etl c4cfg emptyDB).db.rows.length = 1 := by
  have h := run_etl_loaded_count c4cfg emptyDB rfl rfl rfl rfl
    (by decide) (fun d => rfl) rfl (by decide)
  constructor
  · rw [h.1]; decide
  · rw [h.2, h.1]; decide

theorem insertLoop_pending_prop (io : Doc → Bool) (P : Row → Prop)
    (hP : ∀ d e, d.embedding = some e → io d = true →
      P { content := d.content, metadata := d.metadata, embedding := e }) :
    ∀ (docs : List Doc) (n : Nat) (pending : List Row),
      (∀ r ∈ pending, P r) → ∀ r ∈ (insertLoop io docs n pending).2.1, P r := by
  intro docs
  induction docs with
  | nil =>
    intro n pending hp r hr
    exact hp r (by simpa [insertLoop] using hr)
  | cons doc rest ih =>
    intro n pending hp r hr
    cases hemb : doc.embedding with
    | none => exact ih n pending hp r (by simpa [insertLoop, hemb] using hr)
    | some e =>
      cases hio : io doc with
      | false => exact hp r (by simpa [insertLoop, hemb, hio] using hr)
      | true =>
        refine ih (n + 1)
          (pending ++ [{ content := doc.content, metadata := doc.metadata, embedding := e }])
          ?_ r (by simpa [insertLoop, hemb, hio] using hr)
        intro r' hr'
        rcases List.mem_append.mp hr' with h1 | h2
        · exact hp r' h1
        · rw [List.mem_singleton.mp h2]
          exact hP doc e hemb hio

theorem load_to_pgvector_rows_prop (io : Doc → Bool) (co : Bool) (rows : List Row)
    (docs : List Doc) (P : Row → Prop)
    (hrows : ∀ r ∈ rows, P r)
    (hins : ∀ d e, d.embedding = some e → io d = true →
      P { content := d.content, metadata := d.metadata, embedding := e }) :
    ∀ r ∈ (load_to_pgvector io co rows docs).2, P r := by
  intro r hr
  simp only [load_to_pgvector] at hr
  split at hr
  · rcases List.mem_append.mp hr with h1 | h2
    · exact hrows r h1
    · exact insertLoop_pending_prop io P hins docs 0 [] (by simp) r h2
  · exact hrows r hr

theorem run_etl_table_and_rows (cfg : Config) (db : DBState)
    (hc : cfg.connectOk = true) (hs : cfg.schemaOk = true) :
    (run_etl cfg db).db.table = some (db.table.getD default_embedding_dim) ∧
    ((run_etl cfg db).db.rows = db.rows ∨
      (run_etl cfg db).db.rows
        = (load_to_pgvector cfg.insertOk cfg.commitOk db.rows
            (generate_embeddings true cfg.encode
              (extract_documents cfg.sourceExists cfg.files))).2) := by
  cases hm : cfg.modelLoadOk with
  | false => simp [run_etl, hc, hs, hm, initialize_pgvector]
  | true =>
    cases he : (extract_documents cfg.sourceExists cfg.files).isEmpty with
    | true => simp [run_etl, hc, hs, hm, he, initialize_pgvector]
    | false => simp [run_etl, hc, hs, hm, he, initialize_pgvector]

/-- Run configuration for the C5 counterexample: identical to a healthy run
but the loaded model's output dimension is 768 (e.g. all-mpnet-base-v2)
instead of the 384 of the default model. -/
def c5cfg : Config :=
  { connectOk := true, schemaOk := true, modelLoadOk := true, modelDim := 768
    encode := fun _ => some [1], sourceExists := true, files := [c2file]
    insertOk := fun _ => true, commitOk := true }

/-- Claim C5 counterexample: `run_etl` creates the schema *before* loading
the model, using the constructor default `embedding_dim = 384`; with a
768-dimensional model the run records model dimension 768 while the
`documents` table was created as `vector(384)` — the schema's vector-column
dimension does not match the loaded model's dimension. -/
theorem schema_model_dim_mismatch_counterexample :
    (run_etl c5cfg emptyDB).embedding_dim = 768 ∧
    (run_etl c5cfg emptyDB).db.table = some default_embedding_dim ∧
    (run_etl c5cfg emptyDB).db.table ≠ some (run_etl c5cfg emptyDB).embedding_dim := by
  decide

/-- Claim C5 (amended): provided the database accepts an insert only when
the vector has the table's declared dimension, every row persisted by a
run has that declared dimensionality; on a fresh database the table is
created with the *default* dimension 384 — fixed before the model is
loaded — so it matches the loaded model's output dimension only when that
dimension is 384 (as for the default all-MiniLM-L6-v2 model), not in
general. -/
theorem run_etl_dimension_invariant (cfg : Config) (db : DBState)
    (ht : db.table = none) (hc : cfg.connectOk = true) (hs : cfg.schemaOk = true)
    (hins : ∀ d e, d.embedding = some e → cfg.insertOk d = true →
      e.length = default_embedding_dim)
    (hrows : ∀ r ∈ db.rows, r.embedding.length = default_embedding_dim) :
    (run_etl cfg db).db.table = some default_embedding_dim ∧
    ∀ r ∈ (run_etl cfg db).db.rows, r.embedding.length = default_embedding_dim := by
  obtain ⟨h1, h2⟩ := run_etl_table_and_rows cfg db hc hs
  refine ⟨by rw [h1, ht]; rfl, ?_⟩
  rcases h2 with h2 | h2
  · rw [h2]; exact hrows
  · rw [h2]
    exact load_to_pgvector_rows_prop _ _ _ _ _ hrows fun d e he hio => hins d e he hio

/-- Run configuration for the C5 witness: the model outputs 384-dimensional
vectors and the database checks the declared dimension on insert. -/
def c5wcfg : Config :=
  { connectOk := true, schemaOk := true, modelLoadOk := true, modelDim := 384
    encode := fun _ => some (List.replicate 384 1), sourceExists := true, files := [c2file]
    insertOk := fun d => decide ((d.embedding.getD []).length = 384), commitOk := true }

/-- Witness for the amended claim C5 at a concrete healthy 384-dimension run. -/
theorem run_etl_dimension_invariant_witness :
    (run_etl c5wcfg emptyDB).db.table = some default_embedding_dim :=
  (run_etl_dimension_invariant c5wcfg emptyDB rfl rfl rfl
    (fun d e he hio => by
      have h := of_decide_eq_true hio
      rw [he, Option.getD_some] at h
      exact h)
    (by intro r hr; simp [emptyDB] at hr)).1

end ETL

namespace App

/-- Claim C3: for every stored table, query embedding, threshold `t` and
limit `n`, `search_documents` returns only rows whose cosine similarity
`1 - cosDist` strictly exceeds `t` (never a row with similarity ≤ `t`),
returns at most `n` rows, and returns them ordered by descending
similarity (ascending cosine distance). -/
theorem search_documents_spec (cosDist : List ℚ → List ℚ → ℚ) (table : List DocRow)
    (query_embedding : List ℚ) (threshold : ℚ) (limit : Nat) :
    (∀ x ∈ search_documents cosDist table query_embedding threshold limit,
      threshold < x.similarity) ∧
    (search_documents cosDist table query_embedding threshold limit).length ≤ limit ∧
    List.Sorted (fun a b : SearchResult => b.similarity ≤ a.similarity)
      (search_documents cosDist table query_embedding threshold limit) := by
  haveI : IsTotal DocRow
      (fun a b => cosDist a.embedding query_embedding ≤ cosDist b.embedding query_embedding) :=
    ⟨fun a b => le_total _ _⟩
  haveI : IsTrans DocRow
      (fun a b => cosDist a.embedding query_embedding ≤ cosDist b.embedding query_embedding) :=
    ⟨fun a b c hab hbc => le_trans hab hbc⟩
  refine ⟨?_, ?_, ?_⟩
  · intro x hx
    simp only [search_documents, List.mem_map] at hx
    obtain ⟨r, hr, rfl⟩ := hx
    have hr2 := List.take_subset limit _ hr
    simp only [List.mem_insertionSort, List.mem_filter, decide_eq_true_eq] at hr2
    exact hr2.2
  · simp only [search_documents, List.length_map]
    exact List.length_take_le _ _
  · simp only [search_documents]
    have hsort : List.Sorted
        (fun a b : DocRow =>
          cosDist a.embedding query_embedding ≤ cosDist b.embedding query_embedding)
        (List.insertionSort _
          (table.filter fun r => threshold < 1 - cosDist r.embedding query_embedding)) :=
      List.sorted_insertionSort _ _
    have htake := List.Pairwise.sublist (List.take_sublist limit _) hsort
    exact List.pairwise_map.mpr (htake.imp fun hab => sub_le_sub_left hab 1)

/-- The pgvector cosine-distance operator used in the C3 witness: every
stored vector is at distance 0 from the query. -/
def c3cosDist : List ℚ → List ℚ → ℚ := fun _ _ => 0

/-- One-row table for the C3 witness. -/
def c3table : List DocRow := [{ id := 1, content := "hello", metadata := [], embedding := [1] }]

/-- Witness for claim C3 at a concrete one-row table: the returned row has
similarity above the threshold 0, and at most 5 rows come back. -/
theorem search_documents_spec_witness :
    ((0 : ℚ) < (SearchResult.mk 1 "hello" [] 1).similarity) ∧
    (search_documents c3cosDist c3table [1] 0 5).length ≤ 5 :=
  ⟨(search_documents_spec c3cosDist c3table [1] 0 5).1
      { id := 1, content := "hello", metadata := [], similarity := 1 }
      (by
        have h : search_documents c3cosDist c3table [1] 0 5
            = [{ id := 1, content := "hello", metadata := [], similarity := 1 }] := by
          simp [search_documents, c3table, c3cosDist, List.insertionSort, List.orderedInsert]
        rw [h]
        exact List.mem_singleton.mpr rfl),
   (search_documents_spec c3cosDist c3table [1] 0 5).2.1⟩

/-- Claim C6: if either the embedding generation or the database insert
fails, `add_document` returns a 500 internal-error response carrying the
failure reason, and no document row is persisted — the stored document set
is unchanged because the transaction was never committed. -/
theorem add_document_failure_atomic (provider : Except String (List ℚ))
    (insertRes : Except String Nat) (db : List DocRow)
    (content : String) (metadata : List (String × String))
    (h : (∃ e, provider = .error e) ∨ (∃ e, insertRes = .error e)) :
    (∃ e, (add_document provider insertRes db content metadata).1
        = .error { status := 500, detail := e }) ∧
    (add_document provider insertRes db content metadata).2 = db := by
  rcases h with ⟨e, he⟩ | ⟨e, he⟩
  · subst he
    exact ⟨⟨"Embedding generation failed: " ++ e, rfl⟩, rfl⟩
  · subst he
    cases provider with
    | error e2 => exact ⟨⟨"Embedding generation failed: " ++ e2, rfl⟩, rfl⟩
    | ok v => exact ⟨⟨e, rfl⟩, rfl⟩

/-- Witness for claim C6: a concrete embedding-provider failure leaves the
stored rows unchanged. -/
theorem add_document_failure_atomic_witness :
    (add_document (.error "connection refused") (.ok 7) [] "hello" []).2 = [] :=
  (add_document_failure_atomic (.error "connection refused") (.ok 7) [] "hello" []
    (Or.inl ⟨"connection refused", rfl⟩)).2

end App
